import Mathlib

/-!
Shallow embedding of the sub-array crate (src/lib.rs): the SubArray trait
with operations sub_array_ref and sub_array_mut, implemented for fixed-size
arrays [T; M], slices [T], and mutable references &mut T.

Modelling choices:
- A source container (fixed-size array or slice) is a `List T`; its length
  is the Rust length.
- A panic is `none`; a normal return is `some`.
- Rust range indexing `s[a..b]` on a slice panics unless `a ≤ b ∧ b ≤ s.len()`
  and otherwise yields the sub-slice of positions `[a, b)`.
- `try_into()` from `&[T]` to `&[T; N]` followed by `.unwrap()` yields the
  slice when its length is exactly `N` and panics otherwise.
- A mutable fixed-length window `&mut [T; N]` is embedded by explicit state
  passing: it carries the current state of the aliased source together with
  its offset and length, and a write through the window updates the aliased
  position of the source.
-/

namespace SubArrayCrate

/-- Rust range indexing `s[start..stop]` on a slice: panics (`none`) unless
`start ≤ stop` and `stop ≤ s.len()`; otherwise yields the sub-slice of the
elements at positions in `[start, stop)`. -/
def rangeIndex {T : Type} (s : List T) (start stop : Nat) : Option (List T) :=
  if start ≤ stop ∧ stop ≤ s.length then some ((s.drop start).take (stop - start))
  else none

/-- Rust `try_into().unwrap()` converting `&[T]` to `&[T; N]`: succeeds iff
the slice has length exactly `N`, panics (`none`) otherwise. -/
def tryIntoFixed {T : Type} (N : Nat) (sl : List T) : Option (List T) :=
  if sl.length = N then some sl else none

/-- A mutable fixed-length window `&mut [T; N]` into a source container,
embedded by explicit state passing: `src` is the current state of the whole
aliased source and the window covers its positions `[off, off + len)`. -/
structure MutWindow (T : Type) where
  src : List T
  off : Nat
  len : Nat
deriving DecidableEq

namespace MutWindow

/-- Reading element `i` of the mutable window (`w[i]` on the `&mut [T; N]`):
in bounds it is the aliased source element at position `off + i`. -/
def read {T : Type} (w : MutWindow T) (i : Nat) : Option T :=
  if i < w.len then w.src[w.off + i]? else none

/-- Writing `v` to element `i` of the mutable window (`w[i] = v` on the
`&mut [T; N]`): panics (`none`) out of bounds, otherwise updates the aliased
source at position `off + i`. -/
def write {T : Type} (w : MutWindow T) (i : Nat) (v : T) : Option (MutWindow T) :=
  if i < w.len then some (MutWindow.mk (w.src.set (w.off + i) v) w.off w.len)
  else none

end MutWindow

namespace ArrayImpl

/-- Implementation of `sub_array_ref` on regular arrays `[T; M]`
(src/lib.rs lines 96-98): `self[offset..(offset + N)].try_into().unwrap()`. -/
def sub_array_ref {T : Type} (s : List T) (N offset : Nat) : Option (List T) :=
  (rangeIndex s offset (offset + N)).bind (tryIntoFixed N)

/-- Implementation of `sub_array_mut` on regular arrays `[T; M]`
(src/lib.rs lines 100-102):
`(&mut self[offset..(offset + N)]).try_into().unwrap()`; the resulting
`&mut [T; N]` is the mutable window over positions `[offset, offset + N)`
of the source. -/
def sub_array_mut {T : Type} (s : List T) (N offset : Nat) : Option (MutWindow T) :=
  (rangeIndex s offset (offset + N)).bind fun sl =>
    (tryIntoFixed N sl).map fun _ => MutWindow.mk s offset N

end ArrayImpl

namespace SliceImpl

/-- Implementation of `sub_array_ref` on slices `[T]`
(src/lib.rs lines 109-111): `self[offset..(offset + N)].try_into().unwrap()`. -/
def sub_array_ref {T : Type} (s : List T) (N offset : Nat) : Option (List T) :=
  (rangeIndex s offset (offset + N)).bind (tryIntoFixed N)

/-- Implementation of `sub_array_mut` on slices `[T]`
(src/lib.rs lines 113-115):
`(&mut self[offset..(offset + N)]).try_into().unwrap()`; the resulting
`&mut [T; N]` is the mutable window over positions `[offset, offset + N)`
of the source. -/
def sub_array_mut {T : Type} (s : List T) (N offset : Nat) : Option (MutWindow T) :=
  (rangeIndex s offset (offset + N)).bind fun sl =>
    (tryIntoFixed N sl).map fun _ => MutWindow.mk s offset N

end SliceImpl

/-- The `SubArray` trait (src/lib.rs lines 50-90) for a container type `C`
with item type `T`: the two extraction operations, each taking the container,
the compile-time window length `N` and the run-time `offset`. -/
structure SubArrayInst (C T : Type) where
  sub_array_ref : C → Nat → Nat → Option (List T)
  sub_array_mut : C → Nat → Nat → Option (MutWindow T)

/-- Implementation of `SubArray` on mutable references `&mut T` where
`T : SubArray` (src/lib.rs lines 119-132): both operations forward through
one level of dereference to the underlying implementation,
`(**self).sub_array_ref(offset)` and `(**self).sub_array_mut(offset)`. -/
def mutRefImpl {C T : Type} (inst : SubArrayInst C T) : SubArrayInst C T where
  sub_array_ref s N offset := inst.sub_array_ref s N offset
  sub_array_mut s N offset := inst.sub_array_mut s N offset

/-- The observable effect of one call of `sub_array_ref` on a borrowed
source: the returned window paired with the state of the source after the
call.  The method takes `&self`, and the crate forbids unsafe code, so the
call cannot modify the source: the post-state is the source itself. -/
def sub_array_ref_call {T : Type} (s : List T) (N o : Nat) :
    Option (List T) × List T :=
  (ArrayImpl.sub_array_ref s N o, s)

/-- Shared helper: when `o + N ≤ s.length`, the range slice `s[o..o+N]`
exists and is `(s.drop o).take N`. -/
theorem rangeIndex_eq_some {T : Type} (s : List T) (N o : Nat)
    (h : o + N ≤ s.length) :
    rangeIndex s o (o + N) = some ((s.drop o).take N) := by
  unfold rangeIndex
  rw [if_pos ⟨Nat.le_add_right o N, h⟩, Nat.add_sub_cancel_left]

/-- Shared helper: when `o + N ≤ s.length`, the extracted window has length
exactly `N`. -/
theorem window_length {T : Type} (s : List T) (N o : Nat)
    (h : o + N ≤ s.length) :
    ((s.drop o).take N).length = N := by
  rw [List.length_take, List.length_drop]
  exact Nat.min_eq_left (by omega)

/-- Shared helper: element `i < N` of the extracted window is the source
element at position `o + i`. -/
theorem window_getElem {T : Type} (s : List T) (N o i : Nat) (hi : i < N) :
    ((s.drop o).take N)[i]? = s[o + i]? := by
  rw [List.getElem?_take, if_pos hi, List.getElem?_drop]

/-- Shared helper: both `sub_array_ref` implementations succeed on an
in-bounds request and return the window `(s.drop o).take N`. -/
theorem sub_array_ref_eq_window {T : Type} (s : List T) (N o : Nat)
    (h : o + N ≤ s.length) :
    ArrayImpl.sub_array_ref s N o = some ((s.drop o).take N) ∧
    SliceImpl.sub_array_ref s N o = some ((s.drop o).take N) := by
  constructor <;>
    simp [ArrayImpl.sub_array_ref, SliceImpl.sub_array_ref,
      rangeIndex_eq_some s N o h, tryIntoFixed, window_length s N o h]

/-- Shared helper: both `sub_array_mut` implementations succeed on an
in-bounds request and return the mutable window over `[o, o + N)`. -/
theorem sub_array_mut_eq_window {T : Type} (s : List T) (N o : Nat)
    (h : o + N ≤ s.length) :
    ArrayImpl.sub_array_mut s N o = some (MutWindow.mk s o N) ∧
    SliceImpl.sub_array_mut s N o = some (MutWindow.mk s o N) := by
  constructor <;>
    simp [ArrayImpl.sub_array_mut, SliceImpl.sub_array_mut,
      rangeIndex_eq_some s N o h, tryIntoFixed, window_length s N o h]

/-- Shared helper: an out-of-bounds range (`s.length < o + N`) makes the
range indexing panic. -/
theorem rangeIndex_eq_none {T : Type} (s : List T) (N o : Nat)
    (h : s.length < o + N) :
    rangeIndex s o (o + N) = none := by
  unfold rangeIndex
  rw [if_neg]
  omega

/-- C1: for every source container `S` of length `L`, every window length
`N`, and every offset `o` with `o + N ≤ L`, `sub_array_ref o` (on both the
array and the slice implementation) succeeds and returns a window of exactly
`N` elements whose `i`-th element, for every `i < N`, equals the source
element at position `o + i`. -/
theorem sub_array_ref_in_bounds {T : Type} (s : List T) (N o : Nat)
    (h : o + N ≤ s.length) :
    ∃ w : List T, ArrayImpl.sub_array_ref s N o = some w ∧
      SliceImpl.sub_array_ref s N o = some w ∧
      w.length = N ∧ ∀ i : Nat, i < N → w[i]? = s[o + i]? :=
  ⟨(s.drop o).take N, (sub_array_ref_eq_window s N o h).1,
    (sub_array_ref_eq_window s N o h).2, window_length s N o h,
    fun i hi => window_getElem s N o i hi⟩

/-- Witness for C1 at the concrete scenario of the spec: source
`[1,2,3,4,5,6,7]`, window length 3, offset 1, result `[2,3,4]`. -/
theorem sub_array_ref_in_bounds_witness :
    (1 + 3 ≤ ([1, 2, 3, 4, 5, 6, 7] : List Nat).length ∧
      ∃ w : List Nat,
        ArrayImpl.sub_array_ref ([1, 2, 3, 4, 5, 6, 7] : List Nat) 3 1 = some w ∧
        SliceImpl.sub_array_ref ([1, 2, 3, 4, 5, 6, 7] : List Nat) 3 1 = some w ∧
        w.length = 3 ∧
        ∀ i : Nat, i < 3 → w[i]? = ([1, 2, 3, 4, 5, 6, 7] : List Nat)[1 + i]?) ∧
    ArrayImpl.sub_array_ref ([1, 2, 3, 4, 5, 6, 7] : List Nat) 3 1 =
      some [2, 3, 4] :=
  ⟨⟨by decide, sub_array_ref_in_bounds ([1, 2, 3, 4, 5, 6, 7] : List Nat) 3 1
      (by decide)⟩, by decide⟩

/-- C2: for every source container `S` of length `L`, window length `N` and
offset `o` with `o + N > L`, both `sub_array_ref` and `sub_array_mut` (on
arrays and on slices) panic: they return no value at all, hence never clamp,
wrap, or yield a window of another length. -/
theorem sub_array_out_of_bounds_panics {T : Type} (s : List T) (N o : Nat)
    (h : s.length < o + N) :
    ArrayImpl.sub_array_ref s N o = none ∧
    ArrayImpl.sub_array_mut s N o = none ∧
    SliceImpl.sub_array_ref s N o = none ∧
    SliceImpl.sub_array_mut s N o = none := by
  refine ⟨?_, ?_, ?_, ?_⟩ <;>
    simp [ArrayImpl.sub_array_ref, ArrayImpl.sub_array_mut,
      SliceImpl.sub_array_ref, SliceImpl.sub_array_mut,
      rangeIndex_eq_none s N o h]

/-- Witness for C2: source `[1,2,3]`, window length 2, offset 2, so that
`2 + 2 > 3`; all four operations panic. -/
theorem sub_array_out_of_bounds_panics_witness :
    ([1, 2, 3] : List Nat).length < 2 + 2 ∧
    (ArrayImpl.sub_array_ref ([1, 2, 3] : List Nat) 2 2 = none ∧
     ArrayImpl.sub_array_mut ([1, 2, 3] : List Nat) 2 2 = none ∧
     SliceImpl.sub_array_ref ([1, 2, 3] : List Nat) 2 2 = none ∧
     SliceImpl.sub_array_mut ([1, 2, 3] : List Nat) 2 2 = none) :=
  ⟨by decide, sub_array_out_of_bounds_panics ([1, 2, 3] : List Nat) 2 2 (by decide)⟩

/-- C3: for every source container `S` of length `L` and every offset
`o ≤ L` (including `o = L`), extracting a zero-length window succeeds with
an empty window on both operations of both implementations; it never
panics. -/
theorem zero_length_window {T : Type} (s : List T) (o : Nat)
    (h : o ≤ s.length) :
    ArrayImpl.sub_array_ref s 0 o = some [] ∧
    SliceImpl.sub_array_ref s 0 o = some [] ∧
    ArrayImpl.sub_array_mut s 0 o = some (MutWindow.mk s o 0) ∧
    SliceImpl.sub_array_mut s 0 o = some (MutWindow.mk s o 0) := by
  have h0 : o + 0 ≤ s.length := by omega
  refine ⟨?_, ?_, (sub_array_mut_eq_window s 0 o h0).1,
    (sub_array_mut_eq_window s 0 o h0).2⟩
  · have := (sub_array_ref_eq_window s 0 o h0).1
    simpa using this
  · have := (sub_array_ref_eq_window s 0 o h0).2
    simpa using this

/-- Witness for C3 at the edge case `o = L`: source `[5, 6]`, offset 2. -/
theorem zero_length_window_witness :
    (2 ≤ ([5, 6] : List Nat).length) ∧
    (ArrayImpl.sub_array_ref ([5, 6] : List Nat) 0 2 = some [] ∧
     SliceImpl.sub_array_ref ([5, 6] : List Nat) 0 2 = some [] ∧
     ArrayImpl.sub_array_mut ([5, 6] : List Nat) 0 2 =
       some (MutWindow.mk [5, 6] 2 0) ∧
     SliceImpl.sub_array_mut ([5, 6] : List Nat) 0 2 =
       some (MutWindow.mk [5, 6] 2 0)) :=
  ⟨by decide, zero_length_window ([5, 6] : List Nat) 2 (by decide)⟩

/-- C4: for every source container `S` of length `L`, extracting the
full-length window (`N = L`) at offset 0 with `sub_array_ref` succeeds and
yields exactly `S` itself: every element at its original position, in the
original order. -/
theorem full_length_window {T : Type} (s : List T) :
    ArrayImpl.sub_array_ref s s.length 0 = some s := by
  have h : 0 + s.length ≤ s.length := by omega
  have := (sub_array_ref_eq_window s s.length 0 h).1
  simpa using this

/-- C5: for every in-bounds extraction and every index `i < N` of the
window, writing `v` through the mutable window at index `i` makes position
`o + i` of the source read back as `v`: the mutation is visible in the
source, no copy occurred. -/
theorem mutation_through_window_visible {T : Type} (s : List T) (N o i : Nat)
    (v : T) (h : o + N ≤ s.length) (hi : i < N) :
    ∃ w w' : MutWindow T, ArrayImpl.sub_array_mut s N o = some w ∧
      SliceImpl.sub_array_mut s N o = some w ∧
      w.write i v = some w' ∧ w'.src[o + i]? = some v := by
  refine ⟨MutWindow.mk s o N, MutWindow.mk (s.set (o + i) v) o N,
    (sub_array_mut_eq_window s N o h).1, (sub_array_mut_eq_window s N o h).2,
    ?_, ?_⟩
  · simp [MutWindow.write, hi]
  · exact List.getElem?_set_eq_of_lt v (by omega)

/-- Witness for C5: source `[10, 20, 30]`, window length 2 at offset 1,
writing 99 at window index 1 lands at source position 2. -/
theorem mutation_through_window_visible_witness :
    (1 + 2 ≤ ([10, 20, 30] : List Nat).length ∧ 1 < 2) ∧
    (∃ w w' : MutWindow Nat,
      ArrayImpl.sub_array_mut ([10, 20, 30] : List Nat) 2 1 = some w ∧
      SliceImpl.sub_array_mut ([10, 20, 30] : List Nat) 2 1 = some w ∧
      w.write 1 99 = some w' ∧ w'.src[1 + 1]? = some 99) :=
  ⟨⟨by decide, by decide⟩,
    mutation_through_window_visible ([10, 20, 30] : List Nat) 2 1 1 99
      (by decide) (by decide)⟩

/-- C6: the `&mut T` implementation is a transparent pass-through: for every
underlying implementation, source, window length and offset, both of its
operations return exactly what the underlying implementation returns (the
same window, or the same panic). -/
theorem mut_ref_pass_through {C T : Type} (inst : SubArrayInst C T) (s : C)
    (N o : Nat) :
    (mutRefImpl inst).sub_array_ref s N o = inst.sub_array_ref s N o ∧
    (mutRefImpl inst).sub_array_mut s N o = inst.sub_array_mut s N o :=
  ⟨rfl, rfl⟩

/-- C7: on every in-bounds extraction the slice implementation and the array
implementation of `sub_array_ref` return the same window, whose elements are
the source elements at positions `o + i`. -/
theorem array_slice_impls_agree {T : Type} (s : List T) (N o : Nat)
    (h : o + N ≤ s.length) :
    ∃ w : List T, SliceImpl.sub_array_ref s N o = some w ∧
      ArrayImpl.sub_array_ref s N o = some w ∧
      ∀ i : Nat, i < N → w[i]? = s[o + i]? :=
  ⟨(s.drop o).take N, (sub_array_ref_eq_window s N o h).2,
    (sub_array_ref_eq_window s N o h).1, fun i hi => window_getElem s N o i hi⟩

/-- Witness for C7 at the concrete scenario of the spec: slice backed by
`[1,2,3,4,5,6,7,8,9]`, window length 3 at offset 4 yields `[5,6,7]`,
identical to the extraction on the array. -/
theorem array_slice_impls_agree_witness :
    (4 + 3 ≤ ([1, 2, 3, 4, 5, 6, 7, 8, 9] : List Nat).length ∧
      ∃ w : List Nat,
        SliceImpl.sub_array_ref ([1, 2, 3, 4, 5, 6, 7, 8, 9] : List Nat) 3 4 =
          some w ∧
        ArrayImpl.sub_array_ref ([1, 2, 3, 4, 5, 6, 7, 8, 9] : List Nat) 3 4 =
          some w ∧
        ∀ i : Nat, i < 3 →
          w[i]? = ([1, 2, 3, 4, 5, 6, 7, 8, 9] : List Nat)[4 + i]?) ∧
    SliceImpl.sub_array_ref ([1, 2, 3, 4, 5, 6, 7, 8, 9] : List Nat) 3 4 =
      some [5, 6, 7] :=
  ⟨⟨by decide, array_slice_impls_agree ([1, 2, 3, 4, 5, 6, 7, 8, 9] : List Nat)
      3 4 (by decide)⟩, by decide⟩

/-- C8: `sub_array_ref` is a pure, stateless, idempotent query: a call
leaves the source unchanged, and a second call with the same arguments on
the source as left by the first call returns the same window. -/
theorem sub_array_ref_pure_idempotent {T : Type} (s : List T) (N o : Nat) :
    (sub_array_ref_call s N o).2 = s ∧
    (sub_array_ref_call (sub_array_ref_call s N o).2 N o).1 =
      (sub_array_ref_call s N o).1 :=
  ⟨rfl, rfl⟩

/-- C9: frame property of mutation through the window: writing `v` at window
index `i < N` changes only position `o + i` of the source; every other
position `j ≠ o + i` keeps its previous value. -/
theorem write_through_window_frame {T : Type} (s : List T) (N o i : Nat)
    (v : T) (h : o + N ≤ s.length) (hi : i < N) :
    ∃ w w' : MutWindow T, ArrayImpl.sub_array_mut s N o = some w ∧
      SliceImpl.sub_array_mut s N o = some w ∧
      w.write i v = some w' ∧
      ∀ j : Nat, j ≠ o + i → w'.src[j]? = s[j]? := by
  refine ⟨MutWindow.mk s o N, MutWindow.mk (s.set (o + i) v) o N,
    (sub_array_mut_eq_window s N o h).1, (sub_array_mut_eq_window s N o h).2,
    ?_, ?_⟩
  · simp [MutWindow.write, hi]
  · intro j hj
    exact List.getElem?_set_ne (fun hc => hj hc.symm)

/-- Witness for C9: source `[10, 20, 30, 40]`, window length 2 at offset 1,
writing 99 at window index 0; positions other than 1 are unchanged. -/
theorem write_through_window_frame_witness :
    (1 + 2 ≤ ([10, 20, 30, 40] : List Nat).length ∧ 0 < 2) ∧
    (∃ w w' : MutWindow Nat,
      ArrayImpl.sub_array_mut ([10, 20, 30, 40] : List Nat) 2 1 = some w ∧
      SliceImpl.sub_array_mut ([10, 20, 30, 40] : List Nat) 2 1 = some w ∧
      w.write 0 99 = some w' ∧
      ∀ j : Nat, j ≠ 1 + 0 → w'.src[j]? = ([10, 20, 30, 40] : List Nat)[j]?) :=
  ⟨⟨by decide, by decide⟩,
    write_through_window_frame ([10, 20, 30, 40] : List Nat) 2 1 0 99
      (by decide) (by decide)⟩

/-- C10: under the precondition `o + N ≤ L` the range slice `s[o..o+N]`
exists and has length exactly `N`, so the `try_into()` conversion always
succeeds and the `.unwrap()` panic branch is unreachable: the only fault
path is the bounds check of the range indexing itself. -/
theorem try_into_unwrap_unreachable {T : Type} (s : List T) (N o : Nat)
    (h : o + N ≤ s.length) :
    ∃ sl : List T, rangeIndex s o (o + N) = some sl ∧ sl.length = N ∧
      tryIntoFixed N sl = some sl ∧
      ArrayImpl.sub_array_ref s N o = some sl ∧
      SliceImpl.sub_array_ref s N o = some sl :=
  ⟨(s.drop o).take N, rangeIndex_eq_some s N o h, window_length s N o h,
    by simp [tryIntoFixed, window_length s N o h],
    (sub_array_ref_eq_window s N o h).1, (sub_array_ref_eq_window s N o h).2⟩

/-- Witness for C10: source `[7, 8, 9, 10]`, window length 2 at offset 1. -/
theorem try_into_unwrap_unreachable_witness :
    (1 + 2 ≤ ([7, 8, 9, 10] : List Nat).length) ∧
    (∃ sl : List Nat, rangeIndex ([7, 8, 9, 10] : List Nat) 1 (1 + 2) = some sl ∧
      sl.length = 2 ∧ tryIntoFixed 2 sl = some sl ∧
      ArrayImpl.sub_array_ref ([7, 8, 9, 10] : List Nat) 2 1 = some sl ∧
      SliceImpl.sub_array_ref ([7, 8, 9, 10] : List Nat) 2 1 = some sl) :=
  ⟨by decide, try_into_unwrap_unreachable ([7, 8, 9, 10] : List Nat) 2 1
    (by decide)⟩

end SubArrayCrate
